import Mathlib

/-!
Shallow embedding of the mostly-feathers-cache repository
(src/cache.js and src/cache-map.js): a request-scoped caching hook
with watermark-based lazy invalidation over a bounded key-value store.

Modelling conventions:
* JS values that flow through the hook (payloads, stored entries,
  watermarks, hook items) are modelled by the inductive `JVal`.
  JS `undefined` and `null` are conflated into `JVal.null`; the hook
  never distinguishes them (both are falsy and both compare `!==` to
  any string id).
* Machine time `Date.now()` is an explicit `now : Nat` argument.
* Stored strings are modelled by their parse outcome: `StoredStr.json v`
  for a string that `JSON.parse`s to `v`, `StoredStr.malformed` for a
  non-empty string on which `JSON.parse` throws.  An absent key (or an
  empty — falsy — stored string, which the code never parses) is `none`.
* The md5 digest of crypto is an external library; it is kept abstract
  as a parameter `H : List String → String` applied to the list of
  pieces fed to successive `hash.update` calls.
* Asynchronous store writes are reified as a `Write` list; the two
  syntactic call sites of `cacheMap.set` (value entries from
  `setCacheValue`, watermark entries from `touchService`) are kept as
  two constructors recording which JSON is written and which `ttl`
  argument is passed.
-/

/-- JS runtime values manipulated by the hook. -/
inductive JVal where
  | null
  | str (s : String)
  | num (n : Nat)
  | obj (fields : List (String × JVal))
  | arr (elems : List JVal)

/-- JS truthiness for the values above (`undefined`/`null`, `''` and `0`
are falsy; every object and array is truthy). -/
def truthy : JVal → Bool
  | .null => false
  | .str s => !s.isEmpty
  | .num n => n != 0
  | .obj _ => true
  | .arr _ => true

/-- JS property access `v[k]`: on an object, the field's value
(first binding wins), `undefined` (here `.null`) when the field is
absent; on any non-object, `undefined`. -/
def getField : JVal → String → JVal
  | .obj fs, k => (List.lookup k fs).getD JVal.null
  | _, _ => .null

/-- `fp.omit(keys, v)`: drop the listed top-level fields of an object. -/
def jsOmit (keys : List String) : JVal → JVal
  | .obj fs => .obj (fs.filter (fun kv => !(keys.contains kv.1)))
  | v => v

/-- Field-list merge underlying `fp.assign`: keys of `a` (updated from
`b` where present) followed by the keys of `b` new to `a`. -/
def assignFields (a b : List (String × JVal)) : List (String × JVal) :=
  a.map (fun kv => (kv.1, (List.lookup kv.1 b).getD kv.2)) ++
    b.filter (fun kv => (List.lookup kv.1 a).isNone)

/-- `fp.assign(a, b)`: object merge where `b` wins. -/
def jsAssign : JVal → JVal → JVal
  | .obj fa, .obj fb => .obj (assignFields fa fb)
  | a, .null => a
  | _, b => b

/-- `fp.dissoc`-style removal of one top-level field. -/
def jsDissoc (k : String) : JVal → JVal
  | .obj fs => .obj (fs.filter (fun kv => kv.1 ≠ k))
  | v => v

/-- `fp.dissocPath(['metadata', 'lastWrite'], v)`: remove the nested
`lastWrite` field inside `metadata`, leaving everything else intact. -/
def dissocMetaLastWrite : JVal → JVal
  | .obj fs => .obj (fs.map (fun kv =>
      if kv.1 = "metadata" then (kv.1, jsDissoc "lastWrite" kv.2) else kv))
  | v => v

/-- JS `<` as the hook uses it: all `lastWrite` fields the engine writes
are numbers, so only the number/number case can be true; a comparison
against a missing (`undefined`) side is false. -/
def jsLtNum (a b : JVal) : Bool :=
  match a, b with
  | .num x, .num y => decide (x < y)
  | _, _ => false

/-- Strict equality `v === (s : String)` of a JS value against a string
id: true only for the same string (`undefined`, numbers, objects are
`!==` any string). -/
def jsEqStr : JVal → String → Bool
  | .str s, i => s == i
  | _, _ => false

/-- A stored string, by its `JSON.parse` outcome. -/
inductive StoredStr where
  | json (v : JVal)
  | malformed

/-- The error `JSON.parse` throws on a malformed stored string. -/
inductive ParseErr where
  | parse

/-- The key-value store contents (cache-map.js): `none` is an absent
key or a falsy (empty) stored string, which the code never parses. -/
def Store := String → Option StoredStr

/-- `results[i] && JSON.parse(results[i])`: absent/falsy gives the falsy
value itself (modelled `.null`), a malformed string throws, otherwise
the parsed value. -/
def jsParse : Option StoredStr → Except ParseErr JVal
  | none => .ok JVal.null
  | some (.json v) => .ok v
  | some .malformed => .error ParseErr.parse

/-- `getCacheValue(svcKey, idKey, queryKey)` of src/cache.js (lines
67–96): one batched read of service watermark, id watermark and value
entry (`cacheMap.multi`; `cacheMap.get` of a null key yields null),
parse all three, then decide freshness with the three strict-`<`
clauses and return either null (miss / out of date) or the entry with
`metadata.lastWrite` stripped. -/
def getCacheValue (store : Store) (svcKey : String) (idKey : Option String)
    (queryKey : String) : Except ParseErr JVal := do
  let svcMeta ← jsParse (store svcKey)
  let idMeta ← jsParse (idKey.bind store)
  let cacheValue ← jsParse (store queryKey)
  if truthy cacheValue then
    let outdated := false
    let outdated := if truthy svcMeta then
        outdated || jsLtNum (getField (getField cacheValue "metadata") "lastWrite")
          (getField svcMeta "lastWrite")
      else outdated
    let outdated := if truthy idMeta then
        outdated || jsLtNum (getField (getField cacheValue "metadata") "lastWrite")
          (getField idMeta "lastWrite")
      else outdated
    let outdated := if truthy svcMeta && truthy idMeta then
        outdated || jsLtNum (getField idMeta "lastWrite") (getField svcMeta "lastWrite")
      else outdated
    if outdated then pure JVal.null else pure (dissocMetaLastWrite cacheValue)
  else
    pure JVal.null

/-- A write issued against the store.  Both constructors model a
`cacheMap.set(key, JSON.stringify(v), ttlArg?)` call; `putWm` records
the watermark JSON written by `touchService`. -/
inductive Write where
  | putValue (key : String) (json : JVal) (ttlArg : Option Nat)
  | putWm (key : String) (lastWrite : Nat)

def writeKey : Write → String
  | .putValue k _ _ => k
  | .putWm k _ => k

def writeJson : Write → JVal
  | .putValue _ j _ => j
  | .putWm _ t => JVal.obj [("lastWrite", JVal.num t)]

/-- The third argument actually passed to `cacheMap.set` by a write
(`none` models an omitted / undefined argument). -/
def writeTtl : Write → Option Nat
  | .putValue _ _ t => t
  | .putWm _ _ => none

/-- Applying a write to the store (the serialized JSON is stored). -/
def applyWrite (s : Store) (w : Write) : Store :=
  fun k => if k = writeKey w then some (.json (writeJson w)) else s k

/-- `setCacheValue(svcKey, queryKey, value, ttl)` of src/cache.js
(lines 98–110): split the payload into message / metadata / data when
it is envelope-shaped (truthy value with a truthy `data` field), stamp
`metadata.lastWrite = Date.now()` (payload metadata fields override on
collision, as `fp.assign` merges them second), and write the serialized
entry.  Note the `ttl` parameter is accepted but `cacheMap.set` is
invoked with only two arguments — no ttl is passed through. -/
def setCacheValue (now : Nat) (queryKey : String) (value : JVal) (ttl : Nat) : Write :=
  let metadata0 := JVal.obj [("lastWrite", JVal.num now)]
  if truthy value && truthy (getField value "data") then
    let metadata := jsAssign metadata0
      (if truthy (getField value "metadata") then getField value "metadata"
       else jsOmit ["data"] value)
    let data := getField value "data"
    let message := if truthy (getField value "message") then getField value "message"
      else JVal.str ""
    Write.putValue queryKey (JVal.obj [("message", message), ("metadata", metadata), ("data", data)]) none
  else
    Write.putValue queryKey (JVal.obj [("message", JVal.str ""), ("metadata", metadata0), ("data", value)]) none

/-- `touchService(nameKey)` of src/cache.js (lines 112–117): write a
watermark `\x7b lastWrite: Date.now() \x7d` at the given scope key
(again with no ttl argument). -/
def touchService (nameKey : String) (now : Nat) : Write :=
  Write.putWm nameKey now

/-- The three-clause staleness disjunction exactly as the specification
states it (spec §4.2 step 3), for comparison with the code's
`getCacheValue`: strict `<` throughout. -/
def outdatedSpec (lw : Nat) (svcW idW : Option Nat) : Bool :=
  (match svcW with | some s => decide (lw < s) | none => false) ||
  (match idW with | some i => decide (lw < i) | none => false) ||
  (match svcW, idW with | some s, some i => decide (i < s) | _, _ => false)

/-- Watermark contents as stored by `touchService`. -/
def wmStored (w : Option Nat) : Option StoredStr :=
  w.map (fun t => .json (JVal.obj [("lastWrite", JVal.num t)]))

/-- A store holding (at most) a service watermark, an id watermark and
one value entry at three given keys. -/
def tripleStore (svcKey idKey queryKey : String)
    (svcV idV valV : Option StoredStr) : Store :=
  fun k => if k = queryKey then valV
    else if k = svcKey then svcV
    else if k = idKey then idV
    else none

theorem exceptBindOk {α β ε : Type} (a : α) (f : α → Except ε β) :
    (Except.ok a >>= f) = f a := rfl

theorem truthy_wm (t : Nat) :
    truthy (JVal.obj [("lastWrite", JVal.num t)]) = true := rfl

theorem truthy_null : truthy JVal.null = false := rfl

theorem getField_wm (t : Nat) :
    getField (JVal.obj [("lastWrite", JVal.num t)]) "lastWrite" = JVal.num t := by
  simp [getField, List.lookup]

theorem jsLtNum_num (x y : Nat) :
    jsLtNum (JVal.num x) (JVal.num y) = decide (x < y) := rfl

theorem pureExcept {ε : Type} (x : JVal) : (pure x : Except ε JVal) = .ok x := rfl

theorem okIte {ε : Type} (P : Prop) [Decidable P] (x y : JVal) :
    (if P then (Except.ok x : Except ε JVal) else .ok y) = .ok (if P then x else y) := by
  by_cases h : P <;> simp only [h, ite_true, ite_false]

/-- Evaluation of `getCacheValue` when the three slots hold well-formed
watermarks and a value entry whose `metadata.lastWrite` is the number
`lw`: the result is miss exactly on the spec's three-clause
disjunction, else the entry with `lastWrite` stripped. -/
theorem getCacheValue_parsed (store : Store) (sk qk : String) (ikOpt : Option String)
    (svcW idW : Option Nat) (e : JVal) (lw : Nat)
    (hsvc : store sk = wmStored svcW)
    (hid : ikOpt.bind store = wmStored idW)
    (hval : store qk = some (.json e))
    (htr : truthy e = true)
    (hlw : getField (getField e "metadata") "lastWrite" = JVal.num lw) :
    getCacheValue store sk ikOpt qk =
      .ok (if outdatedSpec lw svcW idW then JVal.null else dissocMetaLastWrite e) := by
  unfold getCacheValue
  rw [hsvc, hid, hval]
  cases svcW <;> cases idW <;>
    simp [wmStored, jsParse, exceptBindOk, htr, hlw, truthy_wm, truthy_null,
      getField_wm, jsLtNum_num, outdatedSpec, okIte, pureExcept, Bool.or_assoc, or_assoc]

/-- Evaluation of `getCacheValue` when the value entry is absent and the
watermark slots are well-formed: miss. -/
theorem getCacheValue_absent (store : Store) (sk qk : String) (ikOpt : Option String)
    (svcW idW : Option Nat)
    (hsvc : store sk = wmStored svcW)
    (hid : ikOpt.bind store = wmStored idW)
    (hval : store qk = none) :
    getCacheValue store sk ikOpt qk = .ok JVal.null := by
  unfold getCacheValue
  rw [hsvc, hid, hval]
  cases svcW <;> cases idW <;>
    simp [wmStored, jsParse, exceptBindOk, truthy_null]

/-- Recognized options of the hook (src/cache.js defaultOptions, lines
10–17).  `enabled` and the store-name assertion are setup-time gates
with no effect on the cache protocol and are elided; `keyPfx` models
the source's `keyPrefix` option. -/
structure Opts where
  idField : String
  keyPfx : String
  headers : List String
  perUser : Bool
  ttl : Nat
  strategies : List (String × Nat)

/-- The hook context supplied by the framework, restricted to the
fields the hook consumes.  `query` stands for the stable serialization
`JSON.stringify(context.params.query \x7c\x7c a default)`, `userId` for
`context.params.user && context.params.user.id \x7c\x7c the empty
string`, `serviceIdField` for `(context.service \x7c\x7c a default).id`,
and `id = none` for an absent (falsy) `context.id`. -/
structure Ctx where
  typ : String
  method : String
  path : String
  svcName : String
  serviceIdField : String
  query : String
  action : String
  provider : String
  headers : List (String × String)
  userId : String
  id : Option String
  result : JVal
  cacheHits : List String

/-- `fp.pickPath(opts.headers, context.params.headers)`: the sub-object
of the request headers at the configured allow-list, in list order. -/
def pickPath (paths : List String) (obj : List (String × String)) :
    List (String × String) :=
  paths.filterMap (fun p => (List.lookup p obj).map (fun v => (p, v)))

/-- `(opts.strategies \x7c\x7c empty)[svcName] \x7c\x7c opts.ttl`: the
per-service ttl override, falling back to the default ttl (also on a
falsy — zero — override, as `\x7c\x7c` does). -/
def svcTtlOf (opts : Opts) (svcName : String) : Nat :=
  match List.lookup svcName opts.strategies with
  | some t => if t = 0 then opts.ttl else t
  | none => opts.ttl

/-- `opts.idField \x7c\x7c (context.service \x7c\x7c a default).id`
(src/cache.js line 45). -/
def idFieldOf (opts : Opts) (ctx : Ctx) : String :=
  if opts.idField.isEmpty then ctx.serviceIdField else opts.idField

/-- `genQueryKey(context, id)` of src/cache.js (lines 52–64): an md5
digest (abstracted as `H`) over the successive `update` pieces — path,
method, serialized query, `__action`, provider, the joined values of
the allow-listed headers, and the acting user id when `perUser` is on —
then `keyPrefix + (id ? id + ':' + hash : hash)`. -/
def genQueryKey (H : List String → String) (opts : Opts) (ctx : Ctx)
    (id : Option String) : String :=
  let headers := pickPath opts.headers ctx.headers
  let hash := H [ctx.path, ctx.method, ctx.query, ctx.action, ctx.provider,
    String.join (headers.map Prod.snd),
    if opts.perUser then ctx.userId else ""]
  opts.keyPfx ++ (match id with
    | some i => i ++ ":" ++ hash
    | none => hash)

/-- Coercion of an item field used as the `id` argument of
`genQueryKey` (`id ? id + ':' + hash : hash`): a falsy field gives no
id part, a truthy one is string-coerced. -/
def jvalToId : JVal → Option String
  | .null => none
  | .str s => if s.isEmpty then none else some s
  | .num n => if n = 0 then none else some (toString n)
  | .obj _ => some "[object Object]"
  | .arr _ => some ""

/-- JS string coercion used in `opts.keyPrefix + item[idField]`
(an absent field concatenates as "undefined"). -/
def jvalToStr : JVal → String
  | .null => "undefined"
  | .str s => s
  | .num n => toString n
  | .obj _ => "[object Object]"
  | .arr _ => ""

/-- `helpers.getHookData(context)` of mostly-feathers-mongoose — an
external collaborator.  Modelled from the spec: it resolves "the item"
produced by the underlying operation from the hook context, i.e. the
context's result. -/
def getHookData (ctx : Ctx) : JVal := ctx.result

/-- `helpers.getHookDataAsArray(context)` of mostly-feathers-mongoose —
an external collaborator.  Modelled from the spec: the items affected
by the operation, as an array (a non-array result is a single item). -/
def getHookDataAsArray (ctx : Ctx) : List JVal :=
  match ctx.result with
  | .arr xs => xs
  | v => [v]

/-- `saveForCache(svcKey, id, value)` of src/cache.js (lines 125–130):
derive the query key for `id`; unless the key is already among this
request's `cacheHits`, write the value through `setCacheValue` with the
service's configured ttl. -/
def saveForCache (H : List String → String) (opts : Opts) (now : Nat) (ctx : Ctx)
    (id : Option String) (value : JVal) : List Write :=
  let queryKey := genQueryKey H opts ctx id
  if ctx.cacheHits.contains queryKey then []
  else [setCacheValue now queryKey value (svcTtlOf opts ctx.svcName)]

/-- The hook body of src/cache.js (lines 39–200), one invocation per
phase: on the post phase (`context.type === 'after'`) it persists
results (find / get) or touches per-item id watermarks (any other
method); on the pre phase it serves find / get from cache (recording
the hit and substituting the result) and touches service / id
watermarks ahead of any other (mutating) method.  The returned list
collects the `cacheMap.set` calls issued; a `JSON.parse` failure in a
pre-phase read rejects the whole invocation. -/
def cacheHook (H : List String → String) (opts : Opts) (now : Nat) (store : Store)
    (ctx : Ctx) : Except ParseErr (Ctx × List Write) :=
  let svcKey := opts.keyPfx ++ ctx.svcName
  if ctx.typ = "after" then
    if ctx.method = "find" then
      .ok (ctx, saveForCache H opts now ctx none ctx.result)
    else if ctx.method = "get" then
      match ctx.id with
      | some i =>
        let item := getHookData ctx
        if jsEqStr (getField item "id") i then
          .ok (ctx, saveForCache H opts now ctx (jvalToId (getField item (idFieldOf opts ctx))) item)
        else
          .ok (ctx, saveForCache H opts now ctx (some i) item)
      | none => .ok (ctx, [])
    else
      let items := getHookDataAsArray ctx
      .ok (ctx, items.map (fun item =>
        touchService (opts.keyPfx ++ jvalToStr (getField item (idFieldOf opts ctx))) now))
  else
    if ctx.method = "find" then
      let queryKey := genQueryKey H opts ctx none
      (getCacheValue store svcKey none queryKey).map (fun values =>
        if truthy values then
          ({ ctx with cacheHits := ctx.cacheHits ++ [queryKey], result := values }, [])
        else (ctx, []))
    else if ctx.method = "create" then
      .ok (ctx, [])
    else if ctx.method = "get" then
      match ctx.id with
      | some i =>
        let idKey := opts.keyPfx ++ i
        let queryKey := genQueryKey H opts ctx (some i)
        (getCacheValue store svcKey (some idKey) queryKey).map (fun value =>
          if truthy value then
            ({ ctx with cacheHits := ctx.cacheHits ++ [queryKey], result := getField value "data" }, [])
          else (ctx, []))
      | none => .ok (ctx, [])
    else
      match ctx.id with
      | some i =>
        .ok (ctx, [touchService svcKey now, touchService (opts.keyPfx ++ i) now])
      | none =>
        .ok (ctx, [touchService svcKey now])

theorem exceptBindErr {α β ε : Type} (e : ε) (f : α → Except ε β) :
    ((Except.error e : Except ε α) >>= f) = .error e := rfl

/-- CacheMap.set (src/cache-map.js, lines 23–25) forwards `ttl * 1000`
as the lru maxAge; when the ttl argument is omitted there is no
configured maxAge (undefined * 1000 is NaN). -/
def lruMaxAge (ttlArg : Option Nat) : Option Nat := ttlArg.map (fun t => t * 1000)

/-- C1: on a batched fetch, an absent value entry is a Miss; a present
entry is treated as outdated exactly when the three-clause strict-`<`
disjunction over the service and id watermarks holds (equal timestamps
are fresh), in which case the result is Miss (null), and otherwise the
entry is returned with `metadata.lastWrite` stripped. -/
theorem c1_staleness_decision :
    (∀ (sk ik qk : String) (svcW idW : Option Nat),
      sk ≠ qk → ik ≠ qk → ik ≠ sk →
      getCacheValue (tripleStore sk ik qk (wmStored svcW) (wmStored idW) none)
        sk (some ik) qk = .ok JVal.null) ∧
    (∀ (sk ik qk : String) (svcW idW : Option Nat) (e : JVal) (lw : Nat),
      sk ≠ qk → ik ≠ qk → ik ≠ sk →
      truthy e = true →
      getField (getField e "metadata") "lastWrite" = JVal.num lw →
      getCacheValue (tripleStore sk ik qk (wmStored svcW) (wmStored idW) (some (.json e)))
        sk (some ik) qk =
        .ok (if outdatedSpec lw svcW idW then JVal.null else dissocMetaLastWrite e)) := by
  constructor
  · intro sk ik qk svcW idW h1 h2 h3
    apply getCacheValue_absent _ _ _ _ svcW idW
    · simp [tripleStore, h1]
    · simp [tripleStore, h2, h3]
    · simp [tripleStore]
  · intro sk ik qk svcW idW e lw h1 h2 h3 htr hlw
    apply getCacheValue_parsed _ _ _ _ svcW idW e lw _ _ _ htr hlw
    · simp [tripleStore, h1]
    · simp [tripleStore, h2, h3]
    · simp [tripleStore]

/-- C2: touching the service watermark at a timestamp strictly above a
stored entry's `lastWrite` makes every later fetch under that service
(id-scoped with an arbitrary id watermark, or collection-level with no
id key) a Miss; touching at a timestamp strictly below it (with no id
watermark in play) leaves the entry fresh. -/
theorem c2_touch_service_invalidation :
    ∀ (sk ik qk : String) (idW : Option Nat) (e : JVal) (lw ts : Nat),
      sk ≠ qk → ik ≠ qk → ik ≠ sk →
      truthy e = true →
      getField (getField e "metadata") "lastWrite" = JVal.num lw →
      ((lw < ts →
        getCacheValue (applyWrite (tripleStore sk ik qk none (wmStored idW) (some (.json e)))
          (touchService sk ts)) sk (some ik) qk = .ok JVal.null) ∧
       (lw < ts →
        getCacheValue (applyWrite (tripleStore sk ik qk none (wmStored idW) (some (.json e)))
          (touchService sk ts)) sk none qk = .ok JVal.null) ∧
       (ts < lw → idW = none →
        getCacheValue (applyWrite (tripleStore sk ik qk none (wmStored idW) (some (.json e)))
          (touchService sk ts)) sk (some ik) qk = .ok (dissocMetaLastWrite e))) := by
  intro sk ik qk idW e lw ts h1 h2 h3 htr hlw
  have hsk : applyWrite (tripleStore sk ik qk none (wmStored idW) (some (.json e)))
      (touchService sk ts) sk = wmStored (some ts) := by
    simp [applyWrite, touchService, writeKey, writeJson, wmStored]
  have hqk : applyWrite (tripleStore sk ik qk none (wmStored idW) (some (.json e)))
      (touchService sk ts) qk = some (.json e) := by
    simp [applyWrite, touchService, writeKey, tripleStore, Ne.symm h1]
  have hik : applyWrite (tripleStore sk ik qk none (wmStored idW) (some (.json e)))
      (touchService sk ts) ik = wmStored idW := by
    simp [applyWrite, touchService, writeKey, tripleStore, h2, h3]
  refine ⟨fun hlt => ?_, fun hlt => ?_, fun hgt hnone => ?_⟩
  · rw [getCacheValue_parsed _ sk qk (some ik) (some ts) idW e lw hsk hik hqk htr hlw]
    simp [outdatedSpec, hlt]
  · rw [getCacheValue_parsed _ sk qk none (some ts) none e lw hsk rfl hqk htr hlw]
    simp [outdatedSpec, hlt]
  · subst hnone
    rw [getCacheValue_parsed _ sk qk (some ik) (some ts) none e lw hsk hik hqk htr hlw]
    have hnlt : ¬ lw < ts := by omega
    simp [outdatedSpec, hnlt]

/-- C3 (bug): `setCacheValue` accepts the scope's configured ttl but
invokes `cacheMap.set` without it, so no write ever carries a ttl and
the lru layer receives no maxAge. -/
theorem c3_ttl_dropped :
    ∀ (now : Nat) (qk : String) (v : JVal) (ttl : Nat),
      writeTtl (setCacheValue now qk v ttl) = none ∧
      lruMaxAge (writeTtl (setCacheValue now qk v ttl)) = none := by
  intro now qk v ttl
  unfold setCacheValue
  split <;> simp [writeTtl, lruMaxAge]

/-- C6 (counterexample): a stored value entry that fails `JSON.parse`
makes `getCacheValue` reject with the parse error instead of reporting
a miss. -/
theorem c6_counterexample :
    getCacheValue (tripleStore "s" "i" "q" none none (some .malformed)) "s" (some "i") "q"
      = .error ParseErr.parse ∧
    getCacheValue (tripleStore "s" "i" "q" none none (some .malformed)) "s" (some "i") "q"
      ≠ .ok JVal.null := by
  have h : getCacheValue (tripleStore "s" "i" "q" none none (some .malformed)) "s" (some "i") "q"
      = .error ParseErr.parse := rfl
  exact ⟨h, by rw [h]; intro hc; exact Except.noConfusion hc⟩

/-- C6 (amended): an unparsable stored value entry always propagates
the parse error out of `getCacheValue`; only an absent or empty stored
string is treated as a miss. -/
theorem c6_parse_error_propagates :
    ∀ (store : Store) (sk : String) (ik : Option String) (qk : String),
      store qk = some .malformed →
      getCacheValue store sk ik qk = .error ParseErr.parse := by
  intro store sk ik qk hqk
  unfold getCacheValue
  cases hsvc : jsParse (store sk) with
  | error err => cases err; rfl
  | ok sv =>
    rw [exceptBindOk]
    cases hid : jsParse (ik.bind store) with
    | error err => cases err; rfl
    | ok iv =>
      rw [exceptBindOk, hqk]
      rfl

/-- Whether a write is a value-entry write (a `setCacheValue` store
write, as opposed to a watermark write) under the given key. -/
def isValueWriteAt (k : String) : Write → Bool
  | .putValue kk _ _ => kk == k
  | .putWm _ _ => false

theorem setCacheValue_key (now : Nat) (qk : String) (v : JVal) (ttl : Nat) :
    writeKey (setCacheValue now qk v ttl) = qk := by
  unfold setCacheValue; split <;> rfl

theorem saveForCache_no_hit (H : List String → String) (opts : Opts) (now : Nat)
    (ctx : Ctx) (id : Option String) (value : JVal) (k : String)
    (hk : k ∈ ctx.cacheHits) :
    ∀ w ∈ saveForCache H opts now ctx id value, isValueWriteAt k w = false := by
  intro w hw
  unfold saveForCache at hw
  simp at hw
  obtain ⟨hnot, rfl⟩ := hw
  have hne : genQueryKey H opts ctx id ≠ k := fun he => hnot (he ▸ hk)
  unfold setCacheValue
  split <;> simp [isValueWriteAt, hne]

/-- C4: in a post-phase invocation, no emitted write is a value-entry
write under a key already recorded in this request's `cacheHits` —
a value served from cache is never rewritten by the same request. -/
theorem c4_hit_never_rewritten :
    ∀ (H : List String → String) (opts : Opts) (now : Nat) (store : Store) (ctx : Ctx)
      (k : String) (ctx2 : Ctx) (ws : List Write),
      ctx.typ = "after" → k ∈ ctx.cacheHits →
      cacheHook H opts now store ctx = .ok (ctx2, ws) →
      ∀ w ∈ ws, isValueWriteAt k w = false := by
  intro H opts now store ctx k ctx2 ws ha hk hrun w hw
  unfold cacheHook at hrun
  rw [if_pos ha] at hrun
  by_cases hf : ctx.method = "find"
  · rw [if_pos hf] at hrun
    simp only [Except.ok.injEq, Prod.mk.injEq] at hrun
    obtain ⟨-, h2⟩ := hrun
    subst h2
    exact saveForCache_no_hit H opts now ctx none ctx.result k hk w hw
  · rw [if_neg hf] at hrun
    by_cases hg : ctx.method = "get"
    · rw [if_pos hg] at hrun
      split at hrun
      case _ i _ =>
        dsimp only at hrun
        split at hrun <;>
        · simp only [Except.ok.injEq, Prod.mk.injEq] at hrun
          obtain ⟨-, h2⟩ := hrun
          subst h2
          exact saveForCache_no_hit H opts now ctx _ _ k hk w hw
      case _ =>
        simp only [Except.ok.injEq, Prod.mk.injEq] at hrun
        obtain ⟨-, h2⟩ := hrun
        subst h2
        simp at hw
    · rw [if_neg hg] at hrun
      simp only [Except.ok.injEq, Prod.mk.injEq] at hrun
      obtain ⟨-, h2⟩ := hrun
      subst h2
      simp only [List.mem_map] at hw
      obtain ⟨it, -, rfl⟩ := hw
      rfl

/-- C5 (amended): the post-phase find write goes through the same
hit-suppression as every other value write — the freshly computed
collection result is written under the collection-level key exactly
when that key is not among this request's `cacheHits`. -/
theorem c5_find_write_suppression :
    ∀ (H : List String → String) (opts : Opts) (now : Nat) (store : Store) (ctx : Ctx),
      ctx.typ = "after" → ctx.method = "find" →
      cacheHook H opts now store ctx = .ok (ctx,
        if ctx.cacheHits.contains (genQueryKey H opts ctx none) then []
        else [setCacheValue now (genQueryKey H opts ctx none) ctx.result
          (svcTtlOf opts ctx.svcName)]) := by
  intro H opts now store ctx ha hf
  unfold cacheHook
  rw [if_pos ha, if_pos hf]
  rfl

/-- C7: on the pre phase of a mutating method, with an id both the
service-scope and the id-scope watermarks are touched, and with no id
only the service-scope watermark is. -/
theorem c7_prephase_mutation_touches :
    ∀ (H : List String → String) (opts : Opts) (now : Nat) (store : Store) (ctx : Ctx),
      ctx.typ ≠ "after" →
      (ctx.method = "update" ∨ ctx.method = "patch" ∨ ctx.method = "remove") →
      cacheHook H opts now store ctx = .ok (ctx,
        match ctx.id with
        | some i => [touchService (opts.keyPfx ++ ctx.svcName) now,
                     touchService (opts.keyPfx ++ i) now]
        | none => [touchService (opts.keyPfx ++ ctx.svcName) now]) := by
  intro H opts now store ctx hb hm
  have hf : ctx.method ≠ "find" := by rcases hm with h | h | h <;> rw [h] <;> decide
  have hc : ctx.method ≠ "create" := by rcases hm with h | h | h <;> rw [h] <;> decide
  have hg : ctx.method ≠ "get" := by rcases hm with h | h | h <;> rw [h] <;> decide
  unfold cacheHook
  rw [if_neg hb, if_neg hf, if_neg hc, if_neg hg]
  cases ctx.id <;> rfl

/-- C8: the derived query key is a pure function of the request-shape
fields — two contexts agreeing on path, method, serialized query,
action, access channel (provider), the allow-listed header values and
(when perUser is on) the acting user id yield the same key — and the
key always has the shape keyPrefix + (id ? id + ':' + hash : hash). -/
theorem c8_key_determinism_and_format :
    ∀ (H : List String → String) (opts : Opts) (a b : Ctx) (id : Option String),
      a.path = b.path → a.method = b.method → a.query = b.query →
      a.action = b.action → a.provider = b.provider →
      pickPath opts.headers a.headers = pickPath opts.headers b.headers →
      (opts.perUser = true → a.userId = b.userId) →
      (genQueryKey H opts a id = genQueryKey H opts b id ∧
       ∃ hsh, genQueryKey H opts a id =
         opts.keyPfx ++ (match id with | some i => i ++ ":" ++ hsh | none => hsh)) := by
  intro H opts a b id h1 h2 h3 h4 h5 h6 h7
  constructor
  · have hu : (if opts.perUser then a.userId else "") =
        (if opts.perUser then b.userId else "") := by
      cases hp : opts.perUser
      · rfl
      · simp [h7 hp]
    unfold genQueryKey
    rw [h1, h2, h3, h4, h5, h6, hu]
  · cases id with
    | some i => exact ⟨_, rfl⟩
    | none => exact ⟨_, rfl⟩

/-- C9: a pre-phase find hit substitutes the whole stored (stripped)
envelope as the context result, a pre-phase get hit substitutes only
the entry's `data` field, and a raw (non-envelope) collection payload
round-trips back wrapped in the message/metadata/data envelope rather
than in its original shape. -/
theorem c9_prephase_result_shapes :
    (∀ (H : List String → String) (opts : Opts) (now : Nat) (store : Store) (ctx : Ctx) (v : JVal),
      ctx.typ ≠ "after" → ctx.method = "find" →
      getCacheValue store (opts.keyPfx ++ ctx.svcName) none (genQueryKey H opts ctx none) = .ok v →
      truthy v = true →
      cacheHook H opts now store ctx =
        .ok ({ ctx with
                cacheHits := ctx.cacheHits ++ [genQueryKey H opts ctx none]
                result := v }, [])) ∧
    (∀ (H : List String → String) (opts : Opts) (now : Nat) (store : Store) (ctx : Ctx)
       (i : String) (v : JVal),
      ctx.typ ≠ "after" → ctx.method = "get" → ctx.id = some i →
      getCacheValue store (opts.keyPfx ++ ctx.svcName) (some (opts.keyPfx ++ i))
        (genQueryKey H opts ctx (some i)) = .ok v →
      truthy v = true →
      cacheHook H opts now store ctx =
        .ok ({ ctx with
                cacheHits := ctx.cacheHits ++ [genQueryKey H opts ctx (some i)]
                result := getField v "data" }, [])) ∧
    (∀ (ts : Nat) (qk sk s : String) (ttl : Nat),
      sk ≠ qk →
      getCacheValue (applyWrite (fun _ => none) (setCacheValue ts qk (JVal.str s) ttl))
        sk none qk =
        .ok (JVal.obj [("message", JVal.str ""), ("metadata", JVal.obj []),
          ("data", JVal.str s)])) := by
  refine ⟨?_, ?_, ?_⟩
  · intro H opts now store ctx v hb hf hget htr
    unfold cacheHook
    rw [if_neg hb, if_pos hf]
    dsimp only
    rw [hget]
    simp [Except.map, htr]
  · intro H opts now store ctx i v hb hg hid hget htr
    have hf : ctx.method ≠ "find" := by rw [hg]; decide
    have hc : ctx.method ≠ "create" := by rw [hg]; decide
    unfold cacheHook
    rw [if_neg hb, if_neg hf, if_neg hc, if_pos hg, hid]
    dsimp only
    rw [hget]
    simp [Except.map, htr]
  · intro ts qk sk s ttl h
    have hform : setCacheValue ts qk (JVal.str s) ttl =
        Write.putValue qk (JVal.obj [("message", JVal.str ""),
          ("metadata", JVal.obj [("lastWrite", JVal.num ts)]),
          ("data", JVal.str s)]) none := by
      simp [setCacheValue, getField, truthy]
    rw [hform]
    rw [getCacheValue_parsed _ sk qk none none none
      (JVal.obj [("message", JVal.str ""),
        ("metadata", JVal.obj [("lastWrite", JVal.num ts)]),
        ("data", JVal.str s)]) ts
      (by simp [applyWrite, writeKey, wmStored, h]) rfl
      (by simp [applyWrite, writeKey, writeJson]) (by rfl) (by rfl)]
    simp [outdatedSpec, dissocMetaLastWrite, jsDissoc]

/-- C10: in the post phase of a get with an id, the alternate-identifier
decision strictly compares the resolved item's literal `id` property
with the context id (whatever `idField` is configured): on mismatch the
entry is saved under the key derived from the context id, on match
under the key derived from the item's `idField` value. -/
theorem c10_after_get_alt_id :
    ∀ (H : List String → String) (opts : Opts) (now : Nat) (store : Store) (ctx : Ctx)
      (i : String) (ctx2 : Ctx) (ws : List Write),
      ctx.typ = "after" → ctx.method = "get" → ctx.id = some i →
      cacheHook H opts now store ctx = .ok (ctx2, ws) →
      ((jsEqStr (getField (getHookData ctx) "id") i = false →
        ws = saveForCache H opts now ctx (some i) (getHookData ctx)) ∧
       (jsEqStr (getField (getHookData ctx) "id") i = true →
        ws = saveForCache H opts now ctx
          (jvalToId (getField (getHookData ctx) (idFieldOf opts ctx))) (getHookData ctx))) := by
  intro H opts now store ctx i ctx2 ws ha hg hid hrun
  have hf : ctx.method ≠ "find" := by rw [hg]; decide
  unfold cacheHook at hrun
  rw [if_pos ha, if_neg hf, if_pos hg, hid] at hrun
  dsimp only at hrun
  constructor
  · intro hne
    rw [hne] at hrun
    simp only [Bool.false_eq_true, if_false, Except.ok.injEq, Prod.mk.injEq] at hrun
    exact hrun.2.symm
  · intro heq
    rw [heq] at hrun
    simp only [if_true, Except.ok.injEq, Prod.mk.injEq] at hrun
    exact hrun.2.symm

/-! Concrete instances used by the witnesses below. -/

def H0 : List String → String := fun _ => "h"

def opts0 : Opts := ⟨"id", "p:", [], false, 600, []⟩

def store0 : Store := fun _ => none

theorem c1_staleness_decision_witness :
    getCacheValue (tripleStore "s" "i" "q" (wmStored (some 9)) (wmStored (some 3)) none)
      "s" (some "i") "q" = .ok JVal.null ∧
    getCacheValue (tripleStore "s" "i" "q" (wmStored (some 9)) (wmStored (some 3))
      (some (.json (JVal.obj [("message", JVal.str "ok"),
        ("metadata", JVal.obj [("lastWrite", JVal.num 4)]), ("data", JVal.str "d")]))))
      "s" (some "i") "q" =
      .ok (if outdatedSpec 4 (some 9) (some 3) then JVal.null
           else dissocMetaLastWrite (JVal.obj [("message", JVal.str "ok"),
             ("metadata", JVal.obj [("lastWrite", JVal.num 4)]), ("data", JVal.str "d")])) :=
  ⟨c1_staleness_decision.1 "s" "i" "q" (some 9) (some 3) (by decide) (by decide) (by decide),
   c1_staleness_decision.2 "s" "i" "q" (some 9) (some 3) _ 4 (by decide) (by decide)
     (by decide) rfl rfl⟩

theorem c2_touch_service_invalidation_witness :
    getCacheValue (applyWrite (tripleStore "s" "i" "q" none (wmStored none)
      (some (.json (JVal.obj [("metadata", JVal.obj [("lastWrite", JVal.num 4)]),
        ("data", JVal.str "d")])))) (touchService "s" 9)) "s" (some "i") "q" = .ok JVal.null :=
  (c2_touch_service_invalidation "s" "i" "q" none
    (JVal.obj [("metadata", JVal.obj [("lastWrite", JVal.num 4)]), ("data", JVal.str "d")])
    4 9 (by decide) (by decide) (by decide) rfl rfl).1 (by decide)

def c4ctx : Ctx :=
  ⟨"after", "get", "pa", "svc", "id", "qs", "", "", [], "", some "42",
    JVal.obj [("id", JVal.str "42")], ["other"]⟩

theorem c4_hit_never_rewritten_witness :
    isValueWriteAt "other" (setCacheValue 0 "p:42:h" (JVal.obj [("id", JVal.str "42")]) 600)
      = false :=
  c4_hit_never_rewritten H0 opts0 0 store0 c4ctx "other" c4ctx
    [setCacheValue 0 "p:42:h" (JVal.obj [("id", JVal.str "42")]) 600]
    rfl (by decide) rfl
    (setCacheValue 0 "p:42:h" (JVal.obj [("id", JVal.str "42")]) 600) (by simp)

def c5ctx : Ctx :=
  ⟨"after", "find", "pa", "svc", "id", "qs", "", "", [], "", none, JVal.str "r", ["p:h"]⟩

/-- C5 (counterexample): a post-phase find whose collection-level query
key is already among the request's `cacheHits` emits no write at all —
the fresh collection result is not written. -/
theorem c5_counterexample : cacheHook H0 opts0 0 store0 c5ctx = .ok (c5ctx, []) := rfl

def c5ctx2 : Ctx :=
  ⟨"after", "find", "pa", "svc", "id", "qs", "", "", [], "", none, JVal.str "r", []⟩

theorem c5_find_write_suppression_witness :
    cacheHook H0 opts0 0 store0 c5ctx2 = .ok (c5ctx2,
      if c5ctx2.cacheHits.contains (genQueryKey H0 opts0 c5ctx2 none) then []
      else [setCacheValue 0 (genQueryKey H0 opts0 c5ctx2 none) c5ctx2.result
        (svcTtlOf opts0 c5ctx2.svcName)]) :=
  c5_find_write_suppression H0 opts0 0 store0 c5ctx2 rfl rfl

theorem c6_parse_error_propagates_witness :
    getCacheValue (tripleStore "sv" "idk" "qu" none none (some .malformed))
      "sv" (some "idk") "qu" = .error ParseErr.parse :=
  c6_parse_error_propagates (tripleStore "sv" "idk" "qu" none none (some .malformed))
    "sv" (some "idk") "qu" (by rfl)

def c7ctx : Ctx :=
  ⟨"before", "update", "pa", "svc", "id", "qs", "", "", [], "", some "42", JVal.null, []⟩

theorem c7_prephase_mutation_touches_witness :
    cacheHook H0 opts0 0 store0 c7ctx = .ok (c7ctx,
      match c7ctx.id with
      | some i => [touchService (opts0.keyPfx ++ c7ctx.svcName) 0,
                   touchService (opts0.keyPfx ++ i) 0]
      | none => [touchService (opts0.keyPfx ++ c7ctx.svcName) 0]) :=
  c7_prephase_mutation_touches H0 opts0 0 store0 c7ctx (by decide) (Or.inl rfl)

def c8a : Ctx :=
  ⟨"before", "find", "pa", "svc", "id", "qs", "ac", "pr", [("x", "1")], "u", none,
    JVal.null, []⟩

def c8b : Ctx :=
  ⟨"before", "find", "pa", "svc", "id", "qs", "ac", "pr", [("x", "1")], "u", none,
    JVal.str "different-unhashed-result", ["some-unhashed-hit"]⟩

theorem c8_key_determinism_and_format_witness :
    genQueryKey H0 opts0 c8a none = genQueryKey H0 opts0 c8b none ∧
    ∃ hsh, genQueryKey H0 opts0 c8a none =
      opts0.keyPfx ++ (match (none : Option String) with
        | some i => i ++ ":" ++ hsh
        | none => hsh) :=
  c8_key_determinism_and_format H0 opts0 c8a c8b none rfl rfl rfl rfl rfl rfl
    (fun _ => rfl)

def entry9 : JVal :=
  JVal.obj [("message", JVal.str ""), ("metadata", JVal.obj [("lastWrite", JVal.num 5)]),
    ("data", JVal.str "r")]

def stripped9 : JVal :=
  JVal.obj [("message", JVal.str ""), ("metadata", JVal.obj []), ("data", JVal.str "r")]

def c9find : Ctx :=
  ⟨"before", "find", "pa", "svc", "id", "qs", "", "", [], "", none, JVal.null, []⟩

def c9get : Ctx :=
  ⟨"before", "get", "pa", "svc", "id", "qs", "", "", [], "", some "42", JVal.null, []⟩

def store9a : Store := tripleStore "p:svc" "x" "p:h" none none (some (.json entry9))

def store9b : Store := tripleStore "p:svc" "p:42" "p:42:h" none none (some (.json entry9))

theorem c9_prephase_result_shapes_witness :
    (cacheHook H0 opts0 0 store9a c9find = .ok ({ c9find with
        cacheHits := c9find.cacheHits ++ [genQueryKey H0 opts0 c9find none]
        result := stripped9 }, [])) ∧
    (cacheHook H0 opts0 0 store9b c9get = .ok ({ c9get with
        cacheHits := c9get.cacheHits ++ [genQueryKey H0 opts0 c9get (some "42")]
        result := getField stripped9 "data" }, [])) ∧
    (getCacheValue (applyWrite (fun _ => none) (setCacheValue 5 "q" (JVal.str "r") 600))
      "s" none "q" =
      .ok (JVal.obj [("message", JVal.str ""), ("metadata", JVal.obj []),
        ("data", JVal.str "r")])) :=
  ⟨c9_prephase_result_shapes.1 H0 opts0 0 store9a c9find stripped9 (by decide) rfl rfl rfl,
   c9_prephase_result_shapes.2.1 H0 opts0 0 store9b c9get "42" stripped9 (by decide) rfl rfl
     rfl rfl,
   c9_prephase_result_shapes.2.2 5 "q" "s" "r" 600 (by decide)⟩

def opts10 : Opts := ⟨"slug", "p:", [], false, 600, []⟩

def c10ctx : Ctx :=
  ⟨"after", "get", "pa", "svc", "id", "qs", "", "", [], "", some "42",
    JVal.obj [("id", JVal.str "42"), ("slug", JVal.str "forty-two")], []⟩

theorem c10_after_get_alt_id_witness :
    ((jsEqStr (getField (getHookData c10ctx) "id") "42" = false →
      [setCacheValue 0 "p:forty-two:h" (JVal.obj [("id", JVal.str "42"),
        ("slug", JVal.str "forty-two")]) 600] =
        saveForCache H0 opts10 0 c10ctx (some "42") (getHookData c10ctx)) ∧
     (jsEqStr (getField (getHookData c10ctx) "id") "42" = true →
      [setCacheValue 0 "p:forty-two:h" (JVal.obj [("id", JVal.str "42"),
        ("slug", JVal.str "forty-two")]) 600] =
        saveForCache H0 opts10 0 c10ctx
          (jvalToId (getField (getHookData c10ctx) (idFieldOf opts10 c10ctx)))
          (getHookData c10ctx))) :=
  c10_after_get_alt_id H0 opts10 0 store0 c10ctx "42" c10ctx
    [setCacheValue 0 "p:forty-two:h" (JVal.obj [("id", JVal.str "42"),
      ("slug", JVal.str "forty-two")]) 600]
    rfl rfl rfl rfl
